import Mathlib

/-!
# BookMark / LinkMarker — verification of the access-control core

Shallow embedding of the bookmarking service: the mongoose data model
(`src/db.ts`), the Express route handlers (`src/index.ts`), and the
authentication middleware (`src/middleware.ts`).  The document store is
modelled as explicit lists carried in a `DB` state; each route handler is a
pure function from request data (plus the oracle inputs the real code draws
from the environment: fresh ids, random hashes, salts, the current time) to a
response and a successor state.  The two external libraries the core calls
into, `jsonwebtoken` and `bcryptjs`, are not part of the repository; they are
modelled from the specification's description of the Token Service and the
Credential Store.
-/

namespace BookMark

/-- A JavaScript runtime value, as far as the handlers inspect one: the
handlers only ever test truthiness of body fields (`if (share)`,
`if (!contentId)`).  `null`, `undefined`, `false`, `0` and `""` are falsy;
every other modelled value (numbers other than 0, non-empty strings, objects)
is truthy.  (Float `NaN` is not modelled; no claim depends on it.) -/
inductive JsValue where
  | null
  | undefined
  | bool (b : Bool)
  | num (n : Int)
  | str (s : String)
  | obj
deriving DecidableEq, Repr

/-- JavaScript truthiness of a `JsValue`. -/
def JsValue.truthy : JsValue → Bool
  | .null => false
  | .undefined => false
  | .bool b => b
  | .num n => n != 0
  | .str s => s != ""
  | .obj => true

/-- Truthiness of a possibly-absent body field: `const {x} = req.body` yields
`undefined` (falsy) when the field is absent. -/
def truthyOpt : Option JsValue → Bool
  | none => false
  | some v => v.truthy

/-- Modelled from the spec (Credential Store, `bcryptjs` is an external
dependency): the value held in the `password` field of a stored user.  The
source's `UserSchema.pre('save')` hook replaces the submitted plaintext with
`bcrypt.hash(password, bcrypt.genSalt(10))` before the document is written.
A bcrypt digest is opaque; it is modelled as a constructor recording the cost
parameter, the salt and the hashed password, distinct by construction from
the `plain` submitted text. -/
inductive PasswordField where
  | plain (p : String)
  | bhash (cost : Nat) (salt : String) (p : String)
deriving DecidableEq, Repr

/-- Modelled from the spec: `bcrypt.compare(candidate, stored)` from
`UserSchema.methods.comparePassword` (src/db.ts lines 115–121): succeeds
exactly when the candidate equals the password the stored digest was computed
from; comparing against a value that is not a bcrypt digest fails. -/
def comparePassword (candidate : String) (stored : PasswordField) : Bool :=
  match stored with
  | .bhash _ _ p => candidate == p
  | .plain _ => false

/-- A stored user document (src/db.ts `UserSchema`): Mongo `_id`, unique
username, password field. -/
structure User where
  id : String
  username : String
  password : PasswordField
deriving DecidableEq, Repr

/-- A stored content (bookmark) document (src/db.ts `ContentSchema`): Mongo
`_id`, globally-unique title, link, tag references, owning user reference. -/
structure Content where
  id : String
  title : String
  link : String
  tags : List String
  userId : String
deriving DecidableEq, Repr

/-- A stored tag document (src/db.ts `TagSchema`). -/
structure Tag where
  id : String
  name : String
  color : String
deriving DecidableEq, Repr

/-- A stored share-link document (src/db.ts `ShareSchema`): owner reference,
unique hash, creation timestamp (seconds). -/
structure Share where
  userId : String
  hash : String
  createdAt : Nat
deriving DecidableEq, Repr

/-- The document store: the four collections.  Tags are present in the data
model but no in-scope operation creates or attaches them (spec §3), so the
tag collection is read-only here. -/
structure DB where
  users : List User
  contents : List Content
  shares : List Share
  tags : List Tag
deriving DecidableEq, Repr

/-! ## Store operations (mongoose calls, with the schemas' unique indexes) -/

/-- `UserModel.create`: the store's unique index on `username` (and the
`_id` primary key) rejects duplicates; the `pre('save')` hook has already
replaced the plaintext by its bcrypt digest (see `PasswordField`). -/
def insertUser (db : DB) (u : User) : Except Unit DB :=
  if db.users.any (fun u0 => u0.username == u.username || u0.id == u.id) then
    .error ()
  else
    .ok { db with users := db.users ++ [u] }

/-- `ContentModel.create`: the store's unique index on `title`
(src/db.ts lines 51–63, `unique : true` on `title`) and the `_id` primary
key reject duplicates. -/
def insertContent (db : DB) (c : Content) : Except Unit DB :=
  if db.contents.any (fun c0 => c0.title == c.title || c0.id == c.id) then
    .error ()
  else
    .ok { db with contents := db.contents ++ [c] }

/-- `ShareModel.create`: the store's unique index on `hash` rejects
duplicates. -/
def insertShare (db : DB) (s : Share) : Except Unit DB :=
  if db.shares.any (fun s0 => s0.hash == s.hash) then
    .error ()
  else
    .ok { db with shares := db.shares ++ [s] }

/-! ## Token Service (`jsonwebtoken`, external; modelled from the spec) -/

/-- Modelled from the spec (Token Service §4.2; `jsonwebtoken` is an external
dependency): a signed token.  `id` is the `id` claim of the payload
(`jwt.sign({ id: user._id }, ...)`); `none` models a payload lacking the
field.  `exp` is the absolute expiry in seconds.  `sig` models the HMAC
signature: verification against a secret succeeds exactly when the token was
signed with that same secret, which is how a symmetric signature behaves for
anyone who cannot produce a signature without the secret. -/
structure SignedToken where
  id : Option String
  exp : Nat
  sig : String
deriving DecidableEq, Repr

/-- `jwt.sign({ id }, secret, { expiresIn: '24h' })` at time `now`
(src/index.ts lines 336–341): embeds the user id and an absolute expiry 24
hours (86400 seconds) from issuance. -/
def jwtSign (userId : String) (secret : String) (now : Nat) : SignedToken :=
  { id := some userId, exp := now + 86400, sig := secret }

/-- Modelled from the spec: `jwt.verify(token, secret)` evaluated at time
`now` — checks the signature and the expiry (a token is expired once the
current time reaches `exp`); on success returns the decoded payload's `id`
claim, on any failure (bad signature or expired) returns `none`
(the library throws, caught by the callers). -/
def jwtVerify (t : SignedToken) (secret : String) (now : Nat) :
    Option (Option String) :=
  if t.sig == secret && now < t.exp then some t.id else none

/-- The value of the `authorization` header when present, partitioned by how
`jwt.verify` treats the string: `tok t` is exactly the well-formed JWT
encoding of `t`; `bearerTok t` is the string `"Bearer " ++` (encoding of
`t`), which is not a well-formed JWT (its first dot-separated segment is not
valid base64url), so verification rejects it; `malformed s` is any other
non-JWT string. -/
inductive AuthHeaderValue where
  | tok (t : SignedToken)
  | bearerTok (t : SignedToken)
  | malformed (s : String)
deriving DecidableEq, Repr

/-- `jwt.verify` applied to the raw header string: only a well-formed JWT
encoding is decoded and verified; a `"Bearer "`-prefixed or otherwise
malformed string throws (modelled as `none`). -/
def jwtVerifyHeader (h : AuthHeaderValue) (secret : String) (now : Nat) :
    Option (Option String) :=
  match h with
  | .tok t => jwtVerify t secret now
  | .bearerTok _ => none
  | .malformed _ => none

/-- `userMiddleware` (src/middleware.ts lines 12–28): reads the
`authorization` header raw (no `Bearer ` stripping); absent header → 401;
`jwt.verify` failure → 401; decoded payload with no usable `id`
(`!decodedData.id`: absent or empty string) → 401; otherwise binds the id to
the request (`req.userId = decodedData.id`). -/
def userMiddleware (header : Option AuthHeaderValue) (secret : String)
    (now : Nat) : Except Nat String :=
  match header with
  | none => .error 401
  | some h =>
    match jwtVerifyHeader h secret now with
    | none => .error 401
    | some idClaim =>
      match idClaim with
      | none => .error 401
      | some i => if i == "" then .error 401 else .ok i

/-! ## Input validation (zod schemas, src/index.ts lines 246–263) -/

/-- The `.trim()` transform of the zod string schemas: removes whitespace
from both ends of the string (JavaScript `String.prototype.trim`). -/
def jsTrim (s : String) : String :=
  ⟨((s.data.dropWhile Char.isWhitespace).reverse.dropWhile
      Char.isWhitespace).reverse⟩

/-- `userSchema.parse`: username 3–50 chars then trimmed, password 6–100
chars (zod runs the length checks before the `.trim()` transform, in chain
order). Returns the validated (trimmed) pair, or `none` for a `ZodError`. -/
def parseUser (username password : String) : Option (String × String) :=
  if 3 ≤ username.length && username.length ≤ 50
      && 6 ≤ password.length && password.length ≤ 100 then
    some (jsTrim username, password)
  else
    none

/-- `contentSchema.parse`: title 1–200 chars then trimmed, link ≤ 2000
chars. -/
def parseContent (title link : String) : Option (String × String) :=
  if 1 ≤ title.length && title.length ≤ 200 && link.length ≤ 2000 then
    some (jsTrim title, link)
  else
    none

/-! ## Route handlers (src/index.ts) -/

/-- `POST /signin` (src/index.ts lines 270–307).  Returns
(status, message) and the successor store.  Note the handler's catch block
has no `ZodError` branch: a validation failure falls into the generic catch
and yields 500. -/
def signinHandler (db : DB) (username password : String)
    (salt freshId : String) : (Nat × String) × DB :=
  match parseUser username password with
  | none => ((500, "Internal server error"), db)
  | some (uname, pw) =>
    match db.users.find? (fun u => u.username == uname) with
    | some _ => ((409, "Username already exists"), db)
    | none =>
      match insertUser db ⟨freshId, uname, .bhash 10 salt pw⟩ with
      | .error _ => ((500, "Internal server error"), db)
      | .ok db' => ((201, "User created successfully"), db')

/-- `POST /login` (src/index.ts lines 310–357).  Returns
(status, message, token).  Unknown username and wrong password both return
the literal `res.status(401).json({status:"error", message:"Invalid
credentials"})`; a validation failure falls into the generic catch (500).
The store is not modified. -/
def loginHandler (db : DB) (username password : String) (secret : String)
    (now : Nat) : Nat × String × Option SignedToken :=
  match parseUser username password with
  | none => (500, "Internal server error", none)
  | some (uname, pw) =>
    match db.users.find? (fun u => u.username == uname) with
    | none => (401, "Invalid credentials", none)
    | some user =>
      if comparePassword pw user.password then
        (200, "Login successful", some (jwtSign user.id secret now))
      else
        (401, "Invalid credentials", none)

/-- `POST /content` (src/index.ts lines 360–394): validation failure →
400 (`ZodError` branch); store rejection (duplicate title) → 500; success →
201 with the created record. -/
def createContentHandler (db : DB) (uid : String) (title link : String)
    (freshId : String) : (Nat × Option Content) × DB :=
  match parseContent title link with
  | none => ((400, none), db)
  | some (t, l) =>
    let c : Content := ⟨freshId, t, l, [], uid⟩
    match insertContent db c with
    | .error _ => ((500, none), db)
    | .ok db' => ((201, some c), db')

/-- A content record as returned by the list endpoints after mongoose
`populate`: tag references resolved to tag documents (unresolvable
references are dropped from a populated array), plus the owner's username
when `userId` was populated (only `GET /content` populates it). -/
structure PopContent where
  id : String
  title : String
  link : String
  tags : List Tag
  userId : String
  ownerUsername : Option String
deriving DecidableEq, Repr

/-- `.populate("tags", "name color")` on one content record. -/
def populateTags (db : DB) (c : Content) : PopContent :=
  { id := c.id, title := c.title, link := c.link
    tags := c.tags.filterMap (fun tid => db.tags.find? (fun t => t.id == tid))
    userId := c.userId, ownerUsername := none }

/-- `GET /content` (src/index.ts lines 396–414):
`ContentModel.find({userId}).populate("userId","username").populate("tags","name color")`. -/
def listContentHandler (db : DB) (uid : String) : List PopContent :=
  (db.contents.filter (fun c => c.userId == uid)).map fun c =>
    { populateTags db c with
      ownerUsername := (db.users.find? (fun u => u.id == c.userId)).map
        (fun u => u.username) }

/-- `DELETE /content` (src/index.ts lines 416–451): falsy `contentId` → 400;
`ContentModel.findOneAndDelete({_id: contentId, userId: req.userId})`
deletes the record only when both match; no match → 404 with the single
merged message; match → 200 and the record is removed. -/
def deleteContentHandler (db : DB) (uid : String) (contentId : String) :
    (Nat × String) × DB :=
  if contentId == "" then
    ((400, "Content ID is required"), db)
  else
    match db.contents.find? (fun c => c.id == contentId && c.userId == uid) with
    | none =>
      ((404, "Content not found or you don't have permission to delete it"), db)
    | some _ =>
      ((200, "Content deleted successfully"),
       { db with
         contents :=
           db.contents.eraseP (fun c => c.id == contentId && c.userId == uid) })

/-- `POST /brain/share` (src/index.ts lines 454–501).  Truthy `share` →
enable: return the existing mapping's hash if one exists, else persist a
fresh mapping with the hash produced by `random(10)` (passed in as
`freshHash`; `random` lives in `utils.js`, modelled from the spec as an
opaque fresh alphanumeric string) and the current time.  Falsy or absent
`share` → disable: `ShareModel.deleteOne({userId})` then 200.  Returns
(status, hash, message) and the successor store. -/
def brainShareHandler (db : DB) (uid : String) (share : Option JsValue)
    (freshHash : String) (now : Nat) :
    (Nat × Option String × Option String) × DB :=
  if truthyOpt share then
    match db.shares.find? (fun s => s.userId == uid) with
    | some s => ((200, some s.hash, none), db)
    | none =>
      match insertShare db ⟨uid, freshHash, now⟩ with
      | .error _ => ((500, none, some "Failed to process share request"), db)
      | .ok db' => ((200, some freshHash, some "Share link created"), db')
  else
    ((200, none, some "Share link removed"),
     { db with shares := db.shares.eraseP (fun s => s.userId == uid) })

/-- The public payload of `GET /brain/:shareLink`: owner's username, the
owner's content set (tags populated), the mapping's creation timestamp —
and nothing else (in particular no credential data). -/
structure BrainData where
  username : String
  content : List PopContent
  sharedAt : Nat
deriving DecidableEq, Repr

/-- `GET /brain/:shareLink` (src/index.ts lines 503–549), unauthenticated:
look the mapping up by hash (404 if absent); fetch the owner's content set
with tags populated and the owner's user record (404 if the user record is
missing); return username, content, sharedAt. -/
def getBrainHandler (db : DB) (hash : String) :
    Except (Nat × String) BrainData :=
  match db.shares.find? (fun s => s.hash == hash) with
  | none => .error (404, "Share link not found")
  | some link =>
    let content :=
      (db.contents.filter (fun c => c.userId == link.userId)).map
        (populateTags db)
    match db.users.find? (fun u => u.id == link.userId) with
    | none => .error (404, "User not found")
    | some user => .ok ⟨user.username, content, link.createdAt⟩

/-! ## Reachable store states -/

/-- One incoming request, with the oracle inputs the real handler draws from
the environment (fresh Mongo ids, bcrypt salt, `random(10)` hash, the
current time).  For the owner-scoped operations `uid` is the identity bound
by `userMiddleware`. -/
inductive Req where
  | signin (username password salt freshId : String)
  | login (username password secret : String) (now : Nat)
  | createContent (uid title link freshId : String)
  | listContent (uid : String)
  | deleteContent (uid contentId : String)
  | brainShare (uid : String) (share : Option JsValue) (freshHash : String)
      (now : Nat)
  | getBrain (hash : String)
deriving DecidableEq, Repr

/-- The successor store state after handling one request (the read-only
endpoints leave the store unchanged). -/
def stepDB (db : DB) : Req → DB
  | .signin u p s f => (signinHandler db u p s f).2
  | .login .. => db
  | .createContent uid t l f => (createContentHandler db uid t l f).2
  | .listContent _ => db
  | .deleteContent uid cid => (deleteContentHandler db uid cid).2
  | .brainShare uid sh fh now => (brainShareHandler db uid sh fh now).2
  | .getBrain _ => db

/-- A store state reachable from an initial state with no users, contents or
shares (the tag collection is externally pre-seeded, spec §3, so any tag
list is an admissible start) by any sequence of requests. -/
inductive Reachable : DB → Prop
  | init (ts : List Tag) : Reachable ⟨[], [], [], ts⟩
  | step (db : DB) (r : Req) : Reachable db → Reachable (stepDB db r)

/-! ## Shared concrete store for witnesses -/

/-- A small concrete store: two users, one content record each, one share
mapping for `alice`. -/
def dbW : DB :=
  { users := [⟨"u1", "alice", .bhash 10 "s1" "secret1"⟩,
              ⟨"u2", "bob", .bhash 10 "s2" "secret2"⟩]
    contents := [⟨"c1", "t1", "l1", [], "u1"⟩, ⟨"c2", "t2", "l2", [], "u2"⟩]
    shares := [⟨"u1", "h1", 5⟩]
    tags := [] }

/-! ## Claims -/

/-- C3: a token issued for user `u` embeds `u` and an absolute expiry 24
hours (86400 s) from issuance; verification with the issuing secret before
expiry resolves to exactly `u`; whatever secret is used, a successful
verification never yields an identity other than `u`; and verification at or
past the 24-hour expiry fails. -/
theorem token_issue_verify_correct (u secret : String) (now : Nat) :
    (jwtSign u secret now).id = some u ∧
    (jwtSign u secret now).exp = now + 86400 ∧
    (∀ t : Nat, t < now + 86400 →
      jwtVerify (jwtSign u secret now) secret t = some (some u)) ∧
    (∀ (secret' : String) (t : Nat) (v : Option String),
      jwtVerify (jwtSign u secret now) secret' t = some v → v = some u) ∧
    (∀ t : Nat, now + 86400 ≤ t →
      jwtVerify (jwtSign u secret now) secret t = none) := by
  refine ⟨rfl, rfl, ?_, ?_, ?_⟩
  · intro t ht
    simp [jwtVerify, jwtSign, ht]
  · intro secret' t v hv
    simp only [jwtVerify, jwtSign] at hv
    split at hv
    · exact (Option.some.inj hv).symm
    · exact absurd hv (by simp)
  · intro t ht
    simp [jwtVerify, jwtSign, Nat.not_lt.mpr ht]

/-- Witness for C3 at a concrete token: issuance at time 0, verification at
time 100 resolves to the issuing user, verification at time 86400 fails. -/
theorem token_issue_verify_correct_witness :
    jwtVerify (jwtSign "u1" "s" 0) "s" 100 = some (some "u1") ∧
    jwtVerify (jwtSign "u1" "s" 0) "s" 86400 = none :=
  ⟨(token_issue_verify_correct "u1" "s" 0).2.2.1 100 (by decide),
   (token_issue_verify_correct "u1" "s" 0).2.2.2.2 86400 (by decide)⟩

/-- C4: the access guard returns 401 when the `authorization` header is
absent, when `jwt.verify` fails for any cause, or when the decoded payload
lacks a usable `id` (absent or empty); with a usable `id` it binds that
identity to the request; and the raw header is treated as the literal token:
a `"Bearer "`-prefixed header is rejected even when the token inside it is
valid. -/
theorem access_guard_correct (secret : String) (now : Nat) :
    userMiddleware none secret now = .error 401 ∧
    (∀ h : AuthHeaderValue, jwtVerifyHeader h secret now = none →
      userMiddleware (some h) secret now = .error 401) ∧
    (∀ h : AuthHeaderValue, jwtVerifyHeader h secret now = some none →
      userMiddleware (some h) secret now = .error 401) ∧
    (∀ h : AuthHeaderValue, jwtVerifyHeader h secret now = some (some "") →
      userMiddleware (some h) secret now = .error 401) ∧
    (∀ (h : AuthHeaderValue) (i : String),
      jwtVerifyHeader h secret now = some (some i) → ¬ i = "" →
      userMiddleware (some h) secret now = .ok i) ∧
    (∀ t : SignedToken,
      userMiddleware (some (.bearerTok t)) secret now = .error 401) := by
  refine ⟨rfl, ?_, ?_, ?_, ?_, ?_⟩
  · intro h hv; simp [userMiddleware, hv]
  · intro h hv; simp [userMiddleware, hv]
  · intro h hv; simp [userMiddleware, hv]
  · intro h i hv hi; simp [userMiddleware, hv, hi]
  · intro t; simp [userMiddleware, jwtVerifyHeader]

/-- Witness for C4 at concrete headers: a valid token binds its identity,
and the same token behind a `"Bearer "` prefix, an expired token, and a
wrong-secret token are all rejected. -/
theorem access_guard_correct_witness :
    userMiddleware (some (.tok (jwtSign "u1" "s" 0))) "s" 5 = .ok "u1" ∧
    userMiddleware (some (.bearerTok (jwtSign "u1" "s" 0))) "s" 5 = .error 401 ∧
    userMiddleware (some (.tok (jwtSign "u1" "s" 0))) "s" 86400 = .error 401 ∧
    userMiddleware (some (.tok (jwtSign "u1" "badsecret" 0))) "s" 5 = .error 401 :=
  ⟨(access_guard_correct "s" 5).2.2.2.2.1 (.tok (jwtSign "u1" "s" 0)) "u1" rfl
    (by decide),
   (access_guard_correct "s" 5).2.2.2.2.2 (jwtSign "u1" "s" 0),
   (access_guard_correct "s" 86400).2.1 (.tok (jwtSign "u1" "s" 0)) rfl,
   (access_guard_correct "s" 5).2.1 (.tok (jwtSign "u1" "badsecret" 0)) rfl⟩

/-- C5: for a shape-valid login request, an unknown username and a wrong
password for an existing username produce the identical externally visible
outcome: status 401, the body message `"Invalid credentials"`, and no
token. -/
theorem login_failures_indistinguishable (db : DB)
    (username password secret : String) (now : Nat) (u' p' : String)
    (hparse : parseUser username password = some (u', p')) :
    (db.users.find? (fun u => u.username == u') = none →
      loginHandler db username password secret now =
        (401, "Invalid credentials", none)) ∧
    (∀ user, db.users.find? (fun u => u.username == u') = some user →
      comparePassword p' user.password = false →
      loginHandler db username password secret now =
        (401, "Invalid credentials", none)) := by
  constructor
  · intro hfind
    simp [loginHandler, hparse, hfind]
  · intro user hfind hcmp
    simp [loginHandler, hparse, hfind, hcmp]

/-- Witness for C5: on the concrete store, logging in as the unknown user
`"mallory"` and logging in as `"alice"` with a wrong password both produce
the same 401 response. -/
theorem login_failures_indistinguishable_witness :
    loginHandler dbW "mallory" "wrongpw" "s" 0 =
      (401, "Invalid credentials", none) ∧
    loginHandler dbW "alice" "wrongpw" "s" 0 =
      (401, "Invalid credentials", none) :=
  ⟨(login_failures_indistinguishable dbW "mallory" "wrongpw" "s" 0
      "mallory" "wrongpw" (by decide)).1 (by decide),
   (login_failures_indistinguishable dbW "alice" "wrongpw" "s" 0
      "alice" "wrongpw" (by decide)).2 ⟨"u1", "alice", .bhash 10 "s1" "secret1"⟩
      (by decide) (by decide)⟩

/-- C10: any `share` body field that is absent or falsy takes the disable
path: the handler returns 200 `"Share link removed"` and deletes the
caller's mapping (a no-op returning 200 when none exists); only a truthy
`share` value takes the enable path, which behaves exactly as with the
literal `true`. -/
theorem share_falsy_disables (db : DB) (uid : String) (v : Option JsValue)
    (fh : String) (now : Nat) :
    (truthyOpt v = false →
      brainShareHandler db uid v fh now =
        ((200, none, some "Share link removed"),
         { db with shares := db.shares.eraseP (fun s => s.userId == uid) })) ∧
    (truthyOpt v = false → (∀ s ∈ db.shares, ¬ s.userId = uid) →
      brainShareHandler db uid v fh now =
        ((200, none, some "Share link removed"), db)) ∧
    (truthyOpt v = true →
      brainShareHandler db uid v fh now =
        brainShareHandler db uid (some (.bool true)) fh now) := by
  refine ⟨?_, ?_, ?_⟩
  · intro hf
    simp [brainShareHandler, hf]
  · intro hf hnone
    have herase : db.shares.eraseP (fun s => s.userId == uid) = db.shares :=
      List.eraseP_of_forall_not (by simpa using hnone)
    simp [brainShareHandler, hf, herase]
  · intro ht
    have h2 : truthyOpt (some (.bool true)) = true := rfl
    simp [brainShareHandler, ht, h2]

/-- Witness for C10 at concrete bodies: absent, `false`, `0` and `""` all
disable (and the no-mapping case is a 200 no-op for `bob`), while the truthy
string `"yes"` takes the enable path. -/
theorem share_falsy_disables_witness :
    brainShareHandler dbW "u1" none "h9" 7 =
      ((200, none, some "Share link removed"), { dbW with shares := [] }) ∧
    brainShareHandler dbW "u1" (some (.bool false)) "h9" 7 =
      ((200, none, some "Share link removed"), { dbW with shares := [] }) ∧
    brainShareHandler dbW "u1" (some (.num 0)) "h9" 7 =
      ((200, none, some "Share link removed"), { dbW with shares := [] }) ∧
    brainShareHandler dbW "u1" (some (.str "")) "h9" 7 =
      ((200, none, some "Share link removed"), { dbW with shares := [] }) ∧
    brainShareHandler dbW "u2" none "h9" 7 =
      ((200, none, some "Share link removed"), dbW) ∧
    brainShareHandler dbW "u1" (some (.str "yes")) "h9" 7 =
      brainShareHandler dbW "u1" (some (.bool true)) "h9" 7 := by
  refine ⟨?_, ?_, ?_, ?_, ?_, ?_⟩
  · exact ((share_falsy_disables dbW "u1" none "h9" 7).1 rfl).trans (by decide)
  · exact ((share_falsy_disables dbW "u1" (some (.bool false)) "h9" 7).1
      rfl).trans (by decide)
  · exact ((share_falsy_disables dbW "u1" (some (.num 0)) "h9" 7).1
      rfl).trans (by decide)
  · exact ((share_falsy_disables dbW "u1" (some (.str "")) "h9" 7).1
      rfl).trans (by decide)
  · exact (share_falsy_disables dbW "u2" none "h9" 7).2.1 rfl (by decide)
  · exact (share_falsy_disables dbW "u1" (some (.str "yes")) "h9" 7).2.2 rfl

/-- C6: enable-sharing is idempotent.  When a mapping for the owner already
exists, a truthy enable returns its hash unchanged and leaves the store
untouched; when none exists, the first enable returns the fresh hash and a
second enable straight after returns the identical hash and changes
nothing. -/
theorem enable_share_idempotent (db : DB) (uid : String) (v : Option JsValue)
    (fh1 fh2 : String) (now1 now2 : Nat) (htr : truthyOpt v = true) :
    (∀ s, db.shares.find? (fun s0 => s0.userId == uid) = some s →
      brainShareHandler db uid v fh1 now1 = ((200, some s.hash, none), db)) ∧
    (db.shares.find? (fun s0 => s0.userId == uid) = none →
     db.shares.any (fun s0 => s0.hash == fh1) = false →
      (brainShareHandler db uid v fh1 now1).1.2.1 = some fh1 ∧
      (brainShareHandler (brainShareHandler db uid v fh1 now1).2 uid v fh2
          now2).1.2.1 = some fh1 ∧
      (brainShareHandler (brainShareHandler db uid v fh1 now1).2 uid v fh2
          now2).2 = (brainShareHandler db uid v fh1 now1).2) := by
  constructor
  · intro s hfind
    simp [brainShareHandler, htr, hfind]
  · intro hfind hfresh
    have hins : insertShare db ⟨uid, fh1, now1⟩ =
        .ok { db with shares := db.shares ++ [⟨uid, fh1, now1⟩] } := by
      simp [insertShare, hfresh]
    have h1 : brainShareHandler db uid v fh1 now1 =
        ((200, some fh1, some "Share link created"),
         { db with shares := db.shares ++ [⟨uid, fh1, now1⟩] }) := by
      simp [brainShareHandler, htr, hfind, hins]
    have hfind2 :
        (({ db with shares := db.shares ++ [⟨uid, fh1, now1⟩] } : DB)).shares.find?
          (fun s0 => s0.userId == uid) = some ⟨uid, fh1, now1⟩ := by
      simp [List.find?_append, hfind]
    refine ⟨by rw [h1], ?_, ?_⟩
    · rw [h1]
      simp [brainShareHandler, htr, hfind2]
    · rw [h1]
      simp [brainShareHandler, htr, hfind2]

/-- Witness for C6 on the concrete store: enabling for `alice` (mapping
`"h1"` exists) returns `"h1"` and leaves the store unchanged; a first enable
for `bob` returns the fresh hash `"h2"` and a second enable straight after
returns the same `"h2"`. -/
theorem enable_share_idempotent_witness :
    brainShareHandler dbW "u1" (some (.bool true)) "zzz" 9 =
      ((200, some "h1", none), dbW) ∧
    (brainShareHandler dbW "u2" (some (.bool true)) "h2" 9).1.2.1 =
      some "h2" ∧
    (brainShareHandler (brainShareHandler dbW "u2" (some (.bool true)) "h2"
        9).2 "u2" (some (.bool true)) "h3" 11).1.2.1 = some "h2" := by
  have h := (enable_share_idempotent dbW "u2" (some (.bool true)) "h2" "h3"
      9 11 rfl).2 (by decide) (by decide)
  exact ⟨(enable_share_idempotent dbW "u1" (some (.bool true)) "zzz" "zzz"
      9 9 rfl).1 ⟨"u1", "h1", 5⟩ (by decide), h.1, h.2.1⟩

/-- C1: the delete-content operation (for a non-empty `contentId`) deletes
only a record that exists and is owned by the caller; when no such record
exists — absent or owned by someone else — it returns the single merged
404 outcome and leaves the store unchanged; after a successful delete the
owner's content list no longer contains the deleted id (given the store's
distinct `_id`s). -/
theorem deleteOwned_correct (db : DB) (uidB cid : String)
    (hcid : ¬ cid = "") :
    ((∀ c ∈ db.contents, ¬(c.id = cid ∧ c.userId = uidB)) →
      deleteContentHandler db uidB cid =
        ((404, "Content not found or you don't have permission to delete it"),
         db)) ∧
    ((∃ c ∈ db.contents, c.id = cid ∧ c.userId = uidB) →
      (deleteContentHandler db uidB cid).1.1 = 200 ∧
      (List.Pairwise (fun a b => ¬ a.id = b.id) db.contents →
        ∀ pc ∈ listContentHandler (deleteContentHandler db uidB cid).2 uidB,
          ¬ pc.id = cid)) := by
  have hbeq : (cid == "") = false := by
    simpa using hcid
  constructor
  · intro hnone
    have hfind :
        db.contents.find? (fun c => c.id == cid && c.userId == uidB) = none := by
      rw [List.find?_eq_none]
      intro c hc
      simpa using hnone c hc
    simp [deleteContentHandler, hbeq, hfind]
  · rintro ⟨c, hc, hid, huid⟩
    have hsome :
        (db.contents.find? (fun c => c.id == cid && c.userId == uidB)).isSome := by
      rw [List.find?_isSome]
      exact ⟨c, hc, by simp [hid, huid]⟩
    obtain ⟨c0, hc0⟩ := Option.isSome_iff_exists.mp hsome
    refine ⟨by simp [deleteContentHandler, hbeq, hc0], ?_⟩
    intro hpw pc hpc
    have h2 : (deleteContentHandler db uidB cid).2.contents =
        db.contents.eraseP (fun c => c.id == cid && c.userId == uidB) := by
      simp [deleteContentHandler, hbeq, hc0]
    simp only [listContentHandler, h2, List.mem_map, List.mem_filter] at hpc
    obtain ⟨c', ⟨hc'mem, hc'uid⟩, hpceq⟩ := hpc
    intro hpcid
    have hc'id : c'.id = cid := by
      subst hpceq
      simpa [populateTags] using hpcid
    -- `c'` survives the erase yet satisfies the delete predicate: with
    -- pairwise-distinct ids this is impossible.
    have hpc' : (fun c => c.id == cid && c.userId == uidB) c' = true := by
      simp [hc'id]
      simpa using hc'uid
    obtain ⟨a, l₁, l₂, hl₁, hpa, heq, herase⟩ :=
      List.exists_of_eraseP (List.mem_of_find?_eq_some hc0)
        (List.find?_some hc0)
    rw [herase] at hc'mem
    rcases List.mem_append.mp hc'mem with hmem | hmem
    · exact absurd hpc' (hl₁ c' hmem)
    · have haid : a.id = cid := by
        have := hpa
        simp only [Bool.and_eq_true, beq_iff_eq] at this
        exact this.1
      have hR : ¬ a.id = c'.id := by
        rw [heq] at hpw
        have h3 := (List.pairwise_append.mp hpw).2.1
        exact (List.pairwise_cons.mp h3).1 c' hmem
      exact hR (haid.trans hc'id.symm)

/-- Witness for C1 on the concrete store: `bob` (`"u2"`) cannot delete
`alice`'s record `"c1"` (404, store unchanged) and deleting a missing id
also yields 404; `alice` (`"u1"`) deletes `"c1"` successfully and her
subsequent list no longer contains it. -/
theorem deleteOwned_correct_witness :
    deleteContentHandler dbW "u2" "c1" =
      ((404, "Content not found or you don't have permission to delete it"),
       dbW) ∧
    deleteContentHandler dbW "u1" "nosuch" =
      ((404, "Content not found or you don't have permission to delete it"),
       dbW) ∧
    (deleteContentHandler dbW "u1" "c1").1.1 = 200 ∧
    ∀ pc ∈ listContentHandler (deleteContentHandler dbW "u1" "c1").2 "u1",
      ¬ pc.id = "c1" := by
  have hB := (deleteOwned_correct dbW "u2" "c1" (by decide)).1 (by decide)
  have hmiss := (deleteOwned_correct dbW "u1" "nosuch" (by decide)).1
    (by decide)
  have hA := (deleteOwned_correct dbW "u1" "c1" (by decide)).2
    ⟨⟨"c1", "t1", "l1", [], "u1"⟩, by decide, rfl, rfl⟩
  exact ⟨hB, hmiss, hA.1, hA.2 (by decide)⟩

/-- C2: the public share lookup needs no authentication and returns 404 when
no mapping with the hash exists or when the mapped owner's user record is
missing; otherwise it returns exactly the mapped owner's content set with
tags attached, the owner's username, and the mapping's creation timestamp —
a `BrainData` value, which carries no credential data. -/
theorem resolvePublic_correct (db : DB) (h : String) :
    (db.shares.find? (fun s => s.hash == h) = none →
      getBrainHandler db h = .error (404, "Share link not found")) ∧
    (∀ link, db.shares.find? (fun s => s.hash == h) = some link →
      db.users.find? (fun u => u.id == link.userId) = none →
      getBrainHandler db h = .error (404, "User not found")) ∧
    (∀ link user, db.shares.find? (fun s => s.hash == h) = some link →
      db.users.find? (fun u => u.id == link.userId) = some user →
      getBrainHandler db h =
        .ok ⟨user.username,
          (db.contents.filter (fun c => c.userId == link.userId)).map
            (populateTags db), link.createdAt⟩ ∧
      (∀ pc ∈ (db.contents.filter (fun c => c.userId == link.userId)).map
          (populateTags db),
        ∃ c ∈ db.contents, c.userId = link.userId ∧ pc = populateTags db c) ∧
      (∀ c ∈ db.contents, c.userId = link.userId →
        populateTags db c ∈
          (db.contents.filter (fun c => c.userId == link.userId)).map
            (populateTags db))) := by
  refine ⟨?_, ?_, ?_⟩
  · intro hfind
    simp [getBrainHandler, hfind]
  · intro link hfind huser
    simp [getBrainHandler, hfind, huser]
  · intro link user hfind huser
    refine ⟨by simp [getBrainHandler, hfind, huser], ?_, ?_⟩
    · intro pc hpc
      obtain ⟨c, hcmem, hpceq⟩ := List.mem_map.mp hpc
      obtain ⟨hcdb, hcuid⟩ := List.mem_filter.mp hcmem
      exact ⟨c, hcdb, by simpa using hcuid, hpceq.symm⟩
    · intro c hcdb hcuid
      exact List.mem_map.mpr
        ⟨c, List.mem_filter.mpr ⟨hcdb, by simpa using hcuid⟩, rfl⟩

/-- Witness for C2 on concrete stores: an unknown hash yields 404; the valid
hash `"h1"` yields exactly `alice`'s content set (tags attached), her
username and the mapping's timestamp without any token; a mapping whose
owner record is missing yields 404. -/
theorem resolvePublic_correct_witness :
    getBrainHandler dbW "nosuch" = .error (404, "Share link not found") ∧
    getBrainHandler dbW "h1" =
      .ok ⟨"alice", [⟨"c1", "t1", "l1", [], "u1", none⟩], 5⟩ ∧
    getBrainHandler ⟨[], [], [⟨"ghost", "hx", 3⟩], []⟩ "hx" =
      .error (404, "User not found") := by
  refine ⟨(resolvePublic_correct dbW "nosuch").1 (by decide), ?_,
    (resolvePublic_correct ⟨[], [], [⟨"ghost", "hx", 3⟩], []⟩ "hx").2.1
      ⟨"ghost", "hx", 3⟩ (by decide) (by decide)⟩
  have h := ((resolvePublic_correct dbW "h1").2.2 ⟨"u1", "h1", 5⟩
    ⟨"u1", "alice", .bhash 10 "s1" "secret1"⟩ (by decide) (by decide)).1
  exact h.trans (by rfl)

/-- C8 counterexample: a signup body failing shape validation (username
`"ab"`, shorter than 3 characters) is answered with 500, not the claimed
400 — the `/signin` handler's catch block has no `ZodError` branch. -/
theorem signin_validation_500_counterexample :
    (signinHandler ⟨[], [], [], []⟩ "ab" "password1" "salt" "u1").1.1 = 500 ∧
    ¬ (signinHandler ⟨[], [], [], []⟩ "ab" "password1" "salt" "u1").1.1
        = 400 := by
  decide

/-- C8 (amended): `POST /signin` returns 201 on success and 409 when the
username is already taken (the lookup is literal, case-sensitive string
equality); a shape-validation failure is not mapped to 400 but falls into
the generic catch and yields 500, as does a store-level rejection. -/
theorem signin_statuses (db : DB) (username password salt freshId : String) :
    (parseUser username password = none →
      signinHandler db username password salt freshId =
        ((500, "Internal server error"), db)) ∧
    (∀ u' p', parseUser username password = some (u', p') →
      (∀ u, db.users.find? (fun u0 => u0.username == u') = some u →
        signinHandler db username password salt freshId =
          ((409, "Username already exists"), db)) ∧
      (db.users.find? (fun u0 => u0.username == u') = none →
        (db.users.any (fun u0 => u0.username == u' || u0.id == freshId)
            = false →
          signinHandler db username password salt freshId =
            ((201, "User created successfully"),
             { db with
               users := db.users ++ [⟨freshId, u', .bhash 10 salt p'⟩] })) ∧
        (db.users.any (fun u0 => u0.username == u' || u0.id == freshId)
            = true →
          signinHandler db username password salt freshId =
            ((500, "Internal server error"), db)))) := by
  constructor
  · intro hparse
    simp [signinHandler, hparse]
  · intro u' p' hparse
    refine ⟨?_, ?_⟩
    · intro u hfind
      simp [signinHandler, hparse, hfind]
    · intro hfind
      constructor
      · intro hfresh
        simp [signinHandler, hparse, hfind, insertUser, hfresh]
      · intro htaken
        simp [signinHandler, hparse, hfind, insertUser, htaken]

/-- Witness for C8 (amended) on concrete stores: registering the fresh
username `"carol"` returns 201 and stores her hashed password; re-registering
the taken `"alice"` returns 409; registering `"Alice"` (different case) does
not collide with `"alice"` and returns 201. -/
theorem signin_statuses_witness :
    (signinHandler dbW "carol" "pw12345" "s9" "u9").1.1 = 201 ∧
    signinHandler dbW "alice" "pw12345" "s9" "u9" =
      ((409, "Username already exists"), dbW) ∧
    (signinHandler dbW "Alice" "pw12345" "s9" "u9").1.1 = 201 := by
  have hc := ((((signin_statuses dbW "carol" "pw12345" "s9" "u9").2
      "carol" "pw12345" (by decide)).2 (by decide)).1 (by decide))
  have ha := (((signin_statuses dbW "alice" "pw12345" "s9" "u9").2
      "alice" "pw12345" (by decide)).1 ⟨"u1", "alice", .bhash 10 "s1" "secret1"⟩
      (by decide))
  have hA := ((((signin_statuses dbW "Alice" "pw12345" "s9" "u9").2
      "Alice" "pw12345" (by decide)).2 (by decide)).1 (by decide))
  exact ⟨by rw [hc], ha, by rw [hA]⟩

/-- Whether a stored password field is a bcrypt digest at the source's cost
parameter 10 (and in particular not a plaintext). -/
def PasswordField.isHashed : PasswordField → Bool
  | .bhash 10 _ _ => true
  | _ => false

/-- One request step either leaves the user collection unchanged or appends
a single user whose password field is the bcrypt digest written by the
`pre('save')` hook. -/
theorem stepDB_users (db : DB) (r : Req) :
    (stepDB db r).users = db.users ∨
    ∃ fid un salt pw, (stepDB db r).users =
      db.users ++ [⟨fid, un, .bhash 10 salt pw⟩] := by
  cases r with
  | signin un pw s f =>
    simp only [stepDB, signinHandler]
    split
    · exact Or.inl rfl
    · split
      · exact Or.inl rfl
      · split
        · exact Or.inl rfl
        · rename_i db' heq
          simp only [insertUser] at heq
          split at heq
          · exact absurd heq (by simp)
          · cases heq
            exact Or.inr ⟨f, _, s, _, rfl⟩
  | login => exact Or.inl rfl
  | createContent uid t l f =>
    simp only [stepDB, createContentHandler]
    split
    · exact Or.inl rfl
    · split
      · exact Or.inl rfl
      · rename_i db' heq
        simp only [insertContent] at heq
        split at heq
        · exact absurd heq (by simp)
        · cases heq
          exact Or.inl rfl
  | listContent _ => exact Or.inl rfl
  | deleteContent uid cid =>
    simp only [stepDB, deleteContentHandler]
    split
    · exact Or.inl rfl
    · split
      · exact Or.inl rfl
      · exact Or.inl rfl
  | brainShare uid sh fh now =>
    simp only [stepDB, brainShareHandler]
    split
    · split
      · exact Or.inl rfl
      · split
        · exact Or.inl rfl
        · rename_i db' heq
          simp only [insertShare] at heq
          split at heq
          · exact absurd heq (by simp)
          · cases heq
            exact Or.inl rfl
    · exact Or.inl rfl
  | getBrain _ => exact Or.inl rfl

/-- C7: in every reachable store state every stored user's password field is
a bcrypt digest (cost 10), never the plaintext; and a login that answers 200
did verify the candidate password against that stored field with
`comparePassword` (bcrypt compare). -/
theorem passwords_only_hashed (db : DB) :
    (Reachable db →
      db.users.all (fun u => u.password.isHashed) = true) ∧
    (∀ (username password secret u' p' : String) (user : User) (now : Nat),
      parseUser username password = some (u', p') →
      db.users.find? (fun u => u.username == u') = some user →
      (loginHandler db username password secret now).1 = 200 →
      comparePassword p' user.password = true) := by
  constructor
  · intro hr
    induction hr with
    | init ts => rfl
    | step db' r _ ih =>
      rw [List.all_eq_true] at ih ⊢
      intro u hu
      rcases stepDB_users db' r with heq | ⟨fid, un, salt, pw, heq⟩
      · exact ih u (heq ▸ hu)
      · rw [heq] at hu
        rcases List.mem_append.mp hu with hm | hm
        · exact ih u hm
        · rw [List.mem_singleton] at hm
          subst hm
          rfl
  · intro username password secret u' p' user now hparse hfind hst
    simp only [loginHandler, hparse, hfind] at hst
    split at hst
    · rename_i hcmp
      exact hcmp
    · exact absurd hst (by decide)

/-- Witness for C7: after registering `alice` into the empty store (one
reachable step) every stored password field is a bcrypt digest; and on the
concrete store a 200 login as `alice` implies bcrypt-compare succeeded on
her stored digest. -/
theorem passwords_only_hashed_witness :
    (stepDB ⟨[], [], [], []⟩ (.signin "alice" "secret1" "s1" "u1")).users.all
      (fun u => u.password.isHashed) = true ∧
    comparePassword "secret1"
      (PasswordField.bhash 10 "s1" "secret1") = true :=
  ⟨(passwords_only_hashed _).1
      (.step ⟨[], [], [], []⟩ (.signin "alice" "secret1" "s1" "u1")
        (.init [])),
   (passwords_only_hashed dbW).2 "alice" "secret1" "tok-secret" "alice"
      "secret1" ⟨"u1", "alice", .bhash 10 "s1" "secret1"⟩ 0 (by decide)
      (by decide) (by decide)⟩

/-- Pairwise-distinct content titles across the whole store. -/
def TitlesDistinct (db : DB) : Prop :=
  db.contents.Pairwise (fun a b => ¬ a.title = b.title)

/-- One request step preserves pairwise-distinct content titles: content is
only ever added through `insertContent`, which the store's unique title
index guards, or removed. -/
theorem titlesDistinct_step (db : DB) (r : Req) (h : TitlesDistinct db) :
    TitlesDistinct (stepDB db r) := by
  cases r with
  | signin un pw s f =>
    simp only [stepDB, signinHandler]
    split
    · exact h
    · split
      · exact h
      · split
        · exact h
        · rename_i db' heq
          simp only [insertUser] at heq
          split at heq
          · exact absurd heq (by simp)
          · cases heq
            exact h
  | login => exact h
  | createContent uid t l f =>
    simp only [stepDB, createContentHandler]
    split
    · exact h
    · split
      · exact h
      · rename_i db' heq
        simp only [insertContent] at heq
        split at heq
        · exact absurd heq (by simp)
        · rename_i hguard
          cases heq
          unfold TitlesDistinct at h ⊢
          refine List.pairwise_append.mpr ⟨h, List.pairwise_singleton .., ?_⟩
          intro a ha b hb
          rw [List.mem_singleton] at hb
          subst hb
          have hfree := List.any_eq_false.mp
            (eq_false_of_ne_true hguard) a ha
          simp only [Bool.or_eq_true, beq_iff_eq, not_or] at hfree
          exact hfree.1
  | listContent _ => exact h
  | deleteContent uid cid =>
    simp only [stepDB, deleteContentHandler]
    split
    · exact h
    · split
      · exact h
      · exact List.Pairwise.sublist (List.eraseP_sublist _) h
  | brainShare uid sh fh now =>
    simp only [stepDB, brainShareHandler]
    split
    · split
      · exact h
      · split
        · exact h
        · rename_i db' heq
          simp only [insertShare] at heq
          split at heq
          · exact absurd heq (by simp)
          · cases heq
            exact h
    · exact h
  | getBrain _ => exact h

/-- C9: the store enforces global uniqueness of content titles, so every
reachable store state has pairwise-distinct titles, and a shape-valid create
whose (trimmed) title equals any existing record's title — regardless of
either record's owner — is rejected by the store and surfaced as 500, not
201, with the store unchanged. -/
theorem content_title_globally_unique (db : DB) :
    (Reachable db → TitlesDistinct db) ∧
    (∀ (uid title link fid t l : String),
      parseContent title link = some (t, l) →
      (∃ c ∈ db.contents, c.title = t) →
      createContentHandler db uid title link fid = ((500, none), db)) := by
  constructor
  · intro hr
    induction hr with
    | init ts => exact List.Pairwise.nil
    | step db' r _ ih => exact titlesDistinct_step db' r ih
  · rintro uid title link fid t l hparse ⟨c, hc, htitle⟩
    have hany : db.contents.any (fun c0 => c0.title == t || c0.id == fid)
        = true :=
      List.any_eq_true.mpr ⟨c, hc, by simp [htitle]⟩
    simp [createContentHandler, hparse, insertContent, hany]

/-- Witness for C9: the store reached by creating one bookmark in the empty
store has distinct titles, and on the concrete store creating a bookmark
with `alice`'s existing title `"t1"` as the different owner `bob` is
answered 500 with the store unchanged. -/
theorem content_title_globally_unique_witness :
    ((stepDB ⟨[], [], [], []⟩
        (.createContent "u1" "t9" "l9" "c9")).contents).Pairwise
      (fun a b => ¬ a.title = b.title) ∧
    createContentHandler dbW "u2" "t1" "lx" "c9" = ((500, none), dbW) :=
  ⟨(content_title_globally_unique _).1
      (.step ⟨[], [], [], []⟩ (.createContent "u1" "t9" "l9" "c9")
        (.init [])),
   (content_title_globally_unique dbW).2 "u2" "t1" "lx" "c9" "t1" "lx"
      (by decide) ⟨⟨"c1", "t1", "l1", [], "u1"⟩, by decide, rfl⟩⟩

end BookMark
